import Mathlib

/-!
Verification of the muralbot G-code pipeline (gcode_parser.py, gcode_modifier.py).

Shallow embedding conventions:
* Python floats are modelled as rationals (ℚ).  Every constant of the source
  (0.5, 5.0, 1e-6, 1e-3, ...) is mapped to the exact rational of its decimal
  literal; no claim in scope depends on binary rounding of these values.
* A parsed G-code file is a list of lines, each line a `List Char`
  (Python iterates over lines and strips each one).
* Python dicts used as records become structures; the `defaultdict(list)`
  keyed by color becomes an insertion-ordered association list.
* Fallible code is modelled with `Except`; in particular the set construction
  at gcode_modifier.py line 92 hashes tuples that contain dicts, which CPython
  rejects with `TypeError: unhashable type: dict`, so the model of
  `optimize_shortest_path` returns that error for any input with a segment.
-/

/-- Constants from gcode_modifier.py (DEFAULT_Z_UP = 5.0). -/
def DEFAULT_Z_UP : ℚ := 5

/-- DEFAULT_Z_DOWN = 0.0. -/
def DEFAULT_Z_DOWN : ℚ := 0

/-- DEFAULT_FEED_RATE_MOVE = 3000. -/
def DEFAULT_FEED_RATE_MOVE : ℚ := 3000

/-- DEFAULT_FEED_RATE_DRAW = 1000. -/
def DEFAULT_FEED_RATE_DRAW : ℚ := 1000

/-- LINE_SPACING = 0.5. -/
def LINE_SPACING : ℚ := 1/2

/-- Literal 1e-6 used for pen-height comparisons (parser Z default and
extractor/emitter pen tests). -/
def Z_EPS : ℚ := 1/1000000

/-- Literal 1e-3 used by the emitter travel-distance test. -/
def TRAVEL_EPS : ℚ := 1/1000

/-- A plane point, Python dict {x:_, y:_}. -/
structure Pt where
  x : ℚ
  y : ℚ
deriving DecidableEq, Repr

/-- A tracked position, Python dict {x:_, y:_, z:_}. -/
structure Pt3 where
  x : ℚ
  y : ℚ
  z : ℚ
deriving DecidableEq, Repr

/-- Move command: G0 (rapid) or G1 (linear draw). -/
inductive Cmd where
  | G0
  | G1
deriving DecidableEq, Repr

/-- A parsed move operation, Python dict
{type: move, command, x, y, z, color}.  The z field is an `Option`
because extract_segments guards on `z is not None`; the parser itself
always produces `some`. -/
structure MoveOp where
  cmd : Cmd
  x : ℚ
  y : ℚ
  z : Option ℚ
  color : List Char
deriving DecidableEq, Repr

/-- A parsed operation.  The parser emits only move items; `other`
models any non-move item, which extract_segments skips via its
`item[type] != move` guard. -/
inductive Op where
  | move (m : MoveOp)
  | other
deriving DecidableEq, Repr

/-- Python str.strip character class (ASCII whitespace). -/
def isStripWS (c : Char) : Bool :=
  c = ' ' ∨ c = '\t' ∨ c = '\n' ∨ c = '\r' ∨ c = '\x0b' ∨ c = '\x0c'

/-- Python line.strip(). -/
def trimLine (l : List Char) : List Char :=
  ((l.dropWhile isStripWS).reverse.dropWhile isStripWS).reverse

/-- Hex digit test, character class [0-9a-fA-F] of color_regex. -/
def isHexDigitCh (c : Char) : Bool :=
  ('0' ≤ c ∧ c ≤ '9') ∨ ('a' ≤ c ∧ c ≤ 'f') ∨ ('A' ≤ c ∧ c ≤ 'F')

/-- Full-line match of color_regex with the leading # removed:
the rest must be exactly 3 or 6 hex digits. -/
def validHex (rest : List Char) : Bool :=
  (rest.length = 3 ∨ rest.length = 6) ∧ rest.all isHexDigitCh

/-- Color normalization of gcode_parser.py lines 41-45: a 4-character
token doubles each hex digit, then the whole token is lowercased. -/
def normalizeColor (line : List Char) : List Char :=
  match line with
  | [h, a, b, c] => ([h, a, a, b, b, c, c]).map Char.toLower
  | _ => line.map Char.toLower

/-- Default color of the parser. -/
def defaultColor : List Char := ['#', '0', '0', '0', '0', '0', '0']

/-- Axis letter captured by coord_regex. -/
inductive Axis where
  | X
  | Y
  | Z
deriving DecidableEq, Repr

/-- Case-insensitive axis letter class [XYZ] of coord_regex. -/
def axisOf (c : Char) : Option Axis :=
  if c = 'X' ∨ c = 'x' then some Axis.X
  else if c = 'Y' ∨ c = 'y' then some Axis.Y
  else if c = 'Z' ∨ c = 'z' then some Axis.Z
  else none

/-- Digit character test. -/
def isDigitCh (c : Char) : Bool := '0' ≤ c ∧ c ≤ '9'

/-- Numeric value of a digit list (most significant first). -/
def digitsVal (ds : List Char) : ℕ :=
  ds.foldl (fun n c => 10 * n + (c.toNat - '0'.toNat)) 0

/-- Match of the numeric part of coord_regex, -?\d+(\.\d+)? with maximal
munch, at the head of the character list.  Returns the exact rational
value of the decimal numeral (Python float(value) parses the same
numeral) and the unconsumed suffix.  A match consumes at least one
character. -/
def scanNumber (cs : List Char) : Option (ℚ × List Char) :=
  let (neg, cs1) := match cs with
    | '-' :: t => (true, t)
    | _ => (false, cs)
  let ds := cs1.takeWhile isDigitCh
  let cs2 := cs1.dropWhile isDigitCh
  if ds.isEmpty then none
  else
    let ip : ℚ := (digitsVal ds : ℚ)
    let (v, rest) := match cs2 with
      | '.' :: t =>
        let fs := t.takeWhile isDigitCh
        if fs.isEmpty then (ip, cs2)
        else (ip + (digitsVal fs : ℚ) / (10 : ℚ) ^ fs.length, t.dropWhile isDigitCh)
      | _ => (ip, cs2)
    some (if neg then -v else v, rest)

/-- Scan of coord_regex.findall over the argument string: at each
position a match of ([XYZ])(-?\d+(\.\d+)?) is attempted; on success the
scan resumes after the match, otherwise at the next character.  The
fuel argument only bounds the recursion; each step consumes at least
one character, so fuel = length of the list is always sufficient. -/
def findallAux : ℕ → List Char → List (Axis × ℚ)
  | 0, _ => []
  | _, [] => []
  | fuel + 1, c :: rest =>
    match axisOf c with
    | none => findallAux fuel rest
    | some a =>
      match scanNumber rest with
      | none => findallAux fuel rest
      | some (v, rest') => (a, v) :: findallAux fuel rest'

/-- coord_regex.findall. -/
def findall (cs : List Char) : List (Axis × ℚ) := findallAux cs.length cs

/-- Match of command regex ^(G[01])\s*(.*) (case-insensitive): the rest
of the line after the two command characters is the argument string.
Leading whitespace in the arguments is immaterial to findall. -/
def matchMove (l : List Char) : Option (Cmd × List Char) :=
  match l with
  | g :: d :: rest =>
    if g = 'G' ∨ g = 'g' then
      if d = '0' then some (Cmd.G0, rest)
      else if d = '1' then some (Cmd.G1, rest)
      else none
    else none
  | _ => none

/-- Coordinates captured on one line, Python dict {x: None, y: None, z: None}
overwritten left to right. -/
structure Coords where
  x : Option ℚ
  y : Option ℚ
  z : Option ℚ
deriving DecidableEq, Repr

/-- The per-line coordinate loop of gcode_parser.py lines 73-84.  Every
captured value is a numeral by construction of coord_regex, so the
ValueError branch (valid_command = False) of the source is unreachable
and has no counterpart here. -/
def applyCoords (found : List (Axis × ℚ)) : Coords :=
  found.foldl
    (fun co p =>
      match p.1 with
      | Axis.X => { co with x := some p.2 }
      | Axis.Y => { co with y := some p.2 }
      | Axis.Z => { co with z := some p.2 })
    ⟨none, none, none⟩

/-- Z defaulting of gcode_parser.py lines 97-107: a captured Z wins;
otherwise a draw move assumes Z = 0 and a rapid move inherits the
previous Z. -/
def targetZ (coz : Option ℚ) (cmd : Cmd) (prevZ : ℚ) : ℚ :=
  match coz with
  | some z => z
  | none =>
    match cmd with
    | Cmd.G1 => 0
    | Cmd.G0 => prevZ

/-- Parser state threaded through the line loop of parse_gcode. -/
structure PState where
  cur : List Char
  lastSet : Option (List Char)
  pos : Pt3
  ops : List Op
deriving DecidableEq, Repr

/-- Initial parser state: default color, no last-set marker, origin. -/
def initPState : PState := ⟨defaultColor, none, ⟨0, 0, 0⟩, []⟩

/-- Processing of one already-stripped line, gcode_parser.py lines 33-125. -/
def processStripped (st : PState) (line : List Char) : PState :=
  match line with
  | [] => st
  | c :: rest =>
    if c = ';' then st
    else if c = '#' then
      if validHex rest then
        let n := normalizeColor (c :: rest)
        if st.lastSet = some n then
          { st with cur := defaultColor, lastSet := none }
        else
          { st with cur := n, lastSet := some n }
      else st
    else
      match matchMove (c :: rest) with
      | some (cmd, args) =>
        let co := applyCoords (findall args)
        let tx := co.x.getD st.pos.x
        let ty := co.y.getD st.pos.y
        let tz := targetZ co.z cmd st.pos.z
        { st with
            ops := st.ops ++ [Op.move ⟨cmd, tx, ty, some tz, st.cur⟩],
            pos := ⟨tx, ty, tz⟩ }
      | none => st

/-- parse_gcode over the lines of the file (file I/O is outside the
modelled core; an unreadable file never reaches the line loop). -/
def parse_gcode (lines : List (List Char)) : List Op :=
  (lines.foldl (fun st l => processStripped st (trimLine l)) initPState).ops

/-- A drawable segment, Python dict {start, end, color}; the source
field named end is called stop here (end is a Lean keyword). -/
structure Segment where
  start : Pt
  stop : Pt
  color : List Char
deriving DecidableEq, Repr

/-- Pen test of extract_segments line 40:
z is not None and z <= DEFAULT_Z_DOWN + 1e-6. -/
def penDown (z : Option ℚ) : Bool :=
  match z with
  | none => false
  | some zq => zq ≤ DEFAULT_Z_DOWN + Z_EPS

/-- defaultdict(list) append, preserving dict insertion order. -/
def addSeg : List (List Char × List Segment) → List Char → Segment →
    List (List Char × List Segment)
  | [], c, s => [(c, [s])]
  | (c', l) :: rest, c, s =>
    if c' = c then (c', l ++ [s]) :: rest else (c', l) :: addSeg rest c s

/-- Loop state of extract_segments (current_pos split into its xy part
and its z, plus the is_pen_down flag, which the source tracks but never
reads). -/
structure ExtractState where
  sbc : List (List Char × List Segment)
  pos : Pt
  z : Option ℚ
  pen : Bool
deriving DecidableEq, Repr

/-- One iteration of the extract_segments loop (lines 31-55). -/
def extractStep (st : ExtractState) (item : Op) : ExtractState :=
  match item with
  | Op.other => st
  | Op.move m =>
    let new_pen_down := penDown m.z
    let sbc' :=
      if m.cmd = Cmd.G1 ∧ new_pen_down = true ∧ (m.x ≠ st.pos.x ∨ m.y ≠ st.pos.y) then
        addSeg st.sbc m.color ⟨st.pos, ⟨m.x, m.y⟩, m.color⟩
      else st.sbc
    ⟨sbc', ⟨m.x, m.y⟩, m.z, new_pen_down⟩

/-- extract_segments. -/
def extract_segments (parsed : List Op) : List (List Char × List Segment) :=
  (parsed.foldl extractStep ⟨[], ⟨0, 0⟩, some 0, false⟩).sbc

/-- Bounding box of get_color_bounds. -/
structure Bounds where
  min_x : ℚ
  min_y : ℚ
  max_x : ℚ
  max_y : ℚ
deriving DecidableEq, Repr

/-- Extremes of one segment over both endpoints. -/
def boundsInit (s : Segment) : Bounds :=
  ⟨min s.start.x s.stop.x, min s.start.y s.stop.y,
   max s.start.x s.stop.x, max s.start.y s.stop.y⟩

/-- One fold step of get_color_bounds. -/
def boundsUpd (b : Bounds) (s : Segment) : Bounds :=
  ⟨min b.min_x (min s.start.x s.stop.x), min b.min_y (min s.start.y s.stop.y),
   max b.max_x (max s.start.x s.stop.x), max b.max_y (max s.start.y s.stop.y)⟩

/-- get_color_bounds.  The source seeds the fold with float infinities
over the whole list; as the empty list is returned as None first, this
is equivalent to seeding with the first segment and folding the rest
(ℚ has no infinities). -/
def get_color_bounds : List Segment → Option Bounds
  | [] => none
  | s :: rest => some (rest.foldl boundsUpd (boundsInit s))

/-- The scan-line while loop of optimize_vertical lines 198-207 (and
the symmetric loop of optimize_horizontal): walk from the lower bound
in steps of LINE_SPACING while at most the upper bound. -/
def scanVals (v maxv : ℚ) : List ℚ :=
  if _h : v ≤ maxv then v :: scanVals (v + LINE_SPACING) maxv else []
termination_by (⌈2 * (maxv - v)⌉ + 1).toNat
decreasing_by
  have key : (2 : ℚ) * (maxv - (v + LINE_SPACING)) = 2 * (maxv - v) - 1 := by
    rw [LINE_SPACING]; ring
  rw [key, Int.ceil_sub_one]
  have hc : 0 ≤ ⌈(2 : ℚ) * (maxv - v)⌉ := Int.ceil_nonneg (by linarith)
  omega

/-- Vertical segments generated for one color (loop body of
optimize_vertical lines 192-207). -/
def vertBlock (p : List Char × List Segment) : List Segment :=
  match get_color_bounds p.2 with
  | none => []
  | some b => (scanVals b.min_x b.max_x).map (fun x => ⟨⟨x, b.min_y⟩, ⟨x, b.max_y⟩, p.1⟩)

/-- Horizontal segments generated for one color (loop body of
optimize_horizontal lines 232-247). -/
def horizBlock (p : List Char × List Segment) : List Segment :=
  match get_color_bounds p.2 with
  | none => []
  | some b => (scanVals b.min_y b.max_y).map (fun y => ⟨⟨b.min_x, y⟩, ⟨b.max_x, y⟩, p.1⟩)

/-- Sort key of optimize_vertical: ascending lexicographic
(start.x, start.y), as a boolean total preorder for mergeSort (Python
list.sort with a key tuple sorts by exactly this order). -/
def vKey (a b : Segment) : Bool :=
  decide (a.start.x < b.start.x ∨ (a.start.x = b.start.x ∧ a.start.y ≤ b.start.y))

/-- Sort key of optimize_horizontal: ascending lexicographic
(start.y, start.x). -/
def hKey (a b : Segment) : Bool :=
  decide (a.start.y < b.start.y ∨ (a.start.y = b.start.y ∧ a.start.x ≤ b.start.x))

/-- optimize_vertical. -/
def optimize_vertical (sbc : List (List Char × List Segment)) : List Segment :=
  List.mergeSort (sbc.flatMap vertBlock) vKey

/-- optimize_horizontal. -/
def optimize_horizontal (sbc : List (List Char × List Segment)) : List Segment :=
  List.mergeSort (sbc.flatMap horizBlock) hKey

/-- optimize_shortest_path, gcode_modifier.py lines 77-160.  Its first
real statement (line 92) builds, for each color with segments,
set(tuple(sorted(seg.items())) for seg in segments); every element of
that generator is a tuple holding the two point dicts, and hashing such
a tuple raises TypeError (unhashable type: dict) in CPython, so the
whole nearest-neighbour loop below it is unreachable whenever any color
has a segment.  When every color has an empty list the comprehension
filters them all out, the while loop never runs, and the function falls
off its end: it has no return statement (its docstring promises a
list), so the caller receives None.  The post-loop count check at lines
158-159 only prints a console warning and affects neither outcome. -/
def optimize_shortest_path (sbc : List (List Char × List Segment)) :
    Except String (Option (List Segment)) :=
  if sbc.any (fun p => ¬ p.2.isEmpty) then
    Except.error "unhashable type: \x27dict\x27"
  else
    Except.ok none

/-- One emitted G-code line, structured by the f-string that builds it
in generate_gcode; fixed literal lines are kept as raw text. -/
inductive GLine where
  | raw (s : String)
  | g0zf (z f : ℚ)
  | g0z (z : ℚ) (tag : String)
  | g0xy (x y : ℚ)
  | colorCmd (c : List Char)
  | g1z (z f : ℚ)
  | g1xy (x y f : ℚ)
deriving DecidableEq, Repr

/-- Emitter state: current_pos and current_color of generate_gcode. -/
structure EState where
  x : ℚ
  y : ℚ
  z : ℚ
  color : Option (List Char)
deriving DecidableEq, Repr

/-- Step 1 of the emitter loop: color change, with a raise first when
the tool is down (lines 289-295). -/
def colorStep (st : EState) (seg : Segment) : List GLine × EState :=
  if some seg.color ≠ st.color then
    if st.z ≤ DEFAULT_Z_DOWN + Z_EPS then
      ([GLine.g0z DEFAULT_Z_UP "Raise tool for color change", GLine.colorCmd seg.color],
       { st with z := DEFAULT_Z_UP, color := some seg.color })
    else
      ([GLine.colorCmd seg.color], { st with color := some seg.color })
  else ([], st)

/-- Step 2: travel to the segment start when the distance to it exceeds
1e-3 (lines 299-309).  The source compares sqrt of the squared distance
with 1e-3; both sides being nonnegative, this equals comparing the
squared distance with (1e-3)^2. -/
def travelStep (st : EState) (seg : Segment) : List GLine × EState :=
  if (st.x - seg.start.x) ^ 2 + (st.y - seg.start.y) ^ 2 > TRAVEL_EPS ^ 2 then
    if st.z ≤ DEFAULT_Z_DOWN + Z_EPS then
      ([GLine.g0z DEFAULT_Z_UP "Raise tool for travel", GLine.g0xy seg.start.x seg.start.y],
       { st with z := DEFAULT_Z_UP, x := seg.start.x, y := seg.start.y })
    else
      ([GLine.g0xy seg.start.x seg.start.y], { st with x := seg.start.x, y := seg.start.y })
  else ([], st)

/-- Step 3: lower the tool when it is up (lines 312-314). -/
def lowerStep (st : EState) : List GLine × EState :=
  if st.z > DEFAULT_Z_DOWN + Z_EPS then
    ([GLine.g1z DEFAULT_Z_DOWN DEFAULT_FEED_RATE_DRAW], { st with z := DEFAULT_Z_DOWN })
  else ([], st)

/-- One iteration of the emitter loop (steps 1-4, lines 283-319). -/
def emitSegment (st : EState) (seg : Segment) : List GLine × EState :=
  let r1 := colorStep st seg
  let r2 := travelStep r1.2 seg
  let r3 := lowerStep r2.2
  (r1.1 ++ r2.1 ++ r3.1 ++ [GLine.g1xy seg.stop.x seg.stop.y DEFAULT_FEED_RATE_DRAW],
   { r3.2 with x := seg.stop.x, y := seg.stop.y })

/-- Fixed preamble of generate_gcode. -/
def preambleLines : List GLine :=
  [GLine.raw "; G-code generated by GCodeVisualizerApp Modifier",
   GLine.raw "G90 ; Use absolute coordinates",
   GLine.raw "G21 ; Set units to millimeters",
   GLine.g0zf DEFAULT_Z_UP DEFAULT_FEED_RATE_MOVE,
   GLine.raw "G0 X0 Y0 ; Move to origin"]

/-- Fixed trailer of generate_gcode. -/
def trailerLines : List GLine :=
  [GLine.g0z DEFAULT_Z_UP "Final lift",
   GLine.raw "G0 X0 Y0 ; Return to origin",
   GLine.raw "M2 ; End of program"]

/-- generate_gcode as a structured line list. -/
def generate_gcode (segs : List Segment) : List GLine :=
  let body := segs.foldl (fun p seg =>
    let r := emitSegment p.2 seg
    (p.1 ++ r.1, r.2)) (([] : List GLine), (⟨0, 0, DEFAULT_Z_UP, none⟩ : EState))
  preambleLines ++ body.1 ++ trailerLines

/-- Fixed three-decimal rendering of a coordinate; stands for the
Python format spec .3f (claims in scope never inspect numeric text). -/
def pad3 (n : ℕ) : String :=
  if n < 10 then "00" ++ toString n
  else if n < 100 then "0" ++ toString n
  else toString n

/-- Decimal text of a rational with three fractional digits. -/
def fmt3 (q : ℚ) : String :=
  let n : ℤ := ⌊q * 1000⌋
  let a := n.natAbs
  (if n < 0 then "-" else "") ++ toString (a / 1000) ++ "." ++ pad3 (a % 1000)

/-- Integer rendering, Python format spec .0f. -/
def fmt0 (q : ℚ) : String := toString ⌊q⌋

/-- Text of one structured line, following the f-strings of the source. -/
def lineToString : GLine → String
  | GLine.raw s => s
  | GLine.g0zf z f => "G0 Z" ++ fmt3 z ++ " F" ++ fmt0 f ++ " ; Ensure tool is up initially"
  | GLine.g0z z tag => "G0 Z" ++ fmt3 z ++ " ; " ++ tag
  | GLine.g0xy x y => "G0 X" ++ fmt3 x ++ " Y" ++ fmt3 y ++ " ; Travel to segment start"
  | GLine.colorCmd c => String.mk c ++ " ; Change color"
  | GLine.g1z z f => "G1 Z" ++ fmt3 z ++ " F" ++ fmt0 f ++ " ; Lower tool"
  | GLine.g1xy x y f => "G1 X" ++ fmt3 x ++ " Y" ++ fmt3 y ++ " F" ++ fmt0 f ++ " ; Draw segment"

/-- newline join of generate_gcode. -/
def renderLines (ls : List GLine) : String :=
  String.intercalate "\n" (ls.map lineToString)

/-- Shared tail of the strategy dispatch in modify_gcode lines 364-371:
an empty (or None, for Shortest Path) optimizer result yields the
failure diagnostic, otherwise the generated toolpath text. -/
def finishStrategy (optimized : List Segment) : String :=
  if optimized.isEmpty then "; Error: Optimization failed or produced no segments."
  else renderLines (generate_gcode optimized)

/-- Body of the try block of modify_gcode (lines 346-371); an uncaught
Python exception is an Except.error carrying str(e). -/
def modifyBody (parsed : List Op) (strategy : String) : Except String String :=
  let sbc := extract_segments parsed
  if sbc.all (fun p => p.2.isEmpty) then
    Except.ok "; Info: No drawing segments (G1 with Z<=0) found in the G-code."
  else if strategy = "Shortest Path" then
    match optimize_shortest_path sbc with
    | Except.error e => Except.error e
    | Except.ok res => Except.ok (finishStrategy (res.getD []))
  else if strategy = "Vertical" then
    Except.ok (finishStrategy (optimize_vertical sbc))
  else if strategy = "Horizontal" then
    Except.ok (finishStrategy (optimize_horizontal sbc))
  else
    Except.ok ("; Error: Unknown optimization strategy \x27" ++ strategy ++ "\x27.")

/-- modify_gcode (lines 331-378): empty-input guard, then the try block
with its catch-all except mapping any exception to a diagnostic
string. -/
def modify_gcode (parsed : List Op) (strategy : String) : String :=
  if parsed.isEmpty then "; Error: No parsed G-code data provided."
  else
    match modifyBody parsed strategy with
    | Except.ok s => s
    | Except.error e => "; Error during modification: " ++ e

/-! ### Helper lemmas -/

/-- A valid color directive whose normalized token differs from the
last-activated marker opens a block: it becomes the active color and
the marker. -/
theorem processStripped_color_open (st : PState) (rest : List Char)
    (hv : validHex rest = true)
    (h : st.lastSet ≠ some (normalizeColor ('#' :: rest))) :
    processStripped st ('#' :: rest) =
      { st with cur := normalizeColor ('#' :: rest),
                lastSet := some (normalizeColor ('#' :: rest)) } := by
  simp [processStripped, hv, h]

/-- A valid color directive whose normalized token equals the
last-activated marker closes the block: active color reverts to the
default and the marker clears. -/
theorem processStripped_color_close (st : PState) (rest : List Char)
    (hv : validHex rest = true)
    (h : st.lastSet = some (normalizeColor ('#' :: rest))) :
    processStripped st ('#' :: rest) =
      { st with cur := defaultColor, lastSet := none } := by
  simp [processStripped, hv, h]

/-- A move line appends exactly one move operation carrying the active
color, and leaves the color state untouched. -/
theorem processStripped_gmove (st : PState) (d : Char) (args : List Char)
    (hd : d = '0' ∨ d = '1') :
    ∃ m : MoveOp, m.color = st.cur ∧
      processStripped st ('G' :: d :: args) =
        { st with ops := st.ops ++ [Op.move m], pos := ⟨m.x, m.y, (m.z).getD 0⟩ } := by
  rcases hd with rfl | rfl
  · refine ⟨⟨Cmd.G0, (applyCoords (findall args)).x.getD st.pos.x,
        (applyCoords (findall args)).y.getD st.pos.y,
        some (targetZ (applyCoords (findall args)).z Cmd.G0 st.pos.z), st.cur⟩, rfl, ?_⟩
    simp [processStripped, matchMove]
  · refine ⟨⟨Cmd.G1, (applyCoords (findall args)).x.getD st.pos.x,
        (applyCoords (findall args)).y.getD st.pos.y,
        some (targetZ (applyCoords (findall args)).z Cmd.G1 st.pos.z), st.cur⟩, rfl, ?_⟩
    simp [processStripped, matchMove]


/-! ### Claims -/

unseal Rat.add Rat.sub Rat.mul Rat.inv in
/-- C1 (refuted; code bug): the claim says optimize_shortest_path
returns an ordered list holding exactly the extracted segments.  On an
input whose extraction yields one segment, the function instead raises
TypeError at its set construction (gcode_modifier.py line 92) before
any reordering, and it could not return the path in any case because it
has no return statement, contradicting its own docstring. -/
theorem c1_shortest_path_returns_no_list :
    extract_segments [Op.move ⟨Cmd.G1, 2, 3, some 0, defaultColor⟩] =
      [(defaultColor, [⟨⟨0, 0⟩, ⟨2, 3⟩, defaultColor⟩])]
    ∧ optimize_shortest_path
        (extract_segments [Op.move ⟨Cmd.G1, 2, 3, some 0, defaultColor⟩]) =
      Except.error "unhashable type: \x27dict\x27" := by
  exact ⟨by decide, by rfl⟩

unseal Rat.add Rat.sub Rat.mul Rat.inv in
/-- C2 (refuted; code bug): the claim says a segment-count mismatch is
surfaced as an internal-consistency error that aborts the call.  The
only mismatch handling in the source is a stdout print (lines 158-159)
that cannot abort and never alters the return value; moreover it is
unreachable for any input with a segment, because the optimizer raises
TypeError at line 92 first, so the caller receives the generic
exception diagnostic below, never a count-mismatch error. -/
theorem c2_no_internal_consistency_error :
    modify_gcode [Op.move ⟨Cmd.G1, 1, 2, some 0, defaultColor⟩] "Shortest Path" =
      "; Error during modification: unhashable type: \x27dict\x27" := by
  decide

/-- C3: a valid color directive is a toggle.  If the normalized token
equals the last-activated marker the active color reverts to the
default and the marker clears; otherwise the token becomes the active
color and the marker.  Hence the same token twice in a row opens and
then closes a block: a move between the two directives carries that
color and a move after the second carries the default color. -/
theorem c3_directive_toggle (st : PState) (rest args1 args2 : List Char) (d1 d2 : Char)
    (hv : validHex rest = true)
    (hno : st.lastSet ≠ some (normalizeColor ('#' :: rest)))
    (hd1 : d1 = '0' ∨ d1 = '1') (hd2 : d2 = '0' ∨ d2 = '1') :
    (∀ s : PState, s.lastSet = some (normalizeColor ('#' :: rest)) →
        processStripped s ('#' :: rest) = { s with cur := defaultColor, lastSet := none })
    ∧ (processStripped st ('#' :: rest)).cur = normalizeColor ('#' :: rest)
    ∧ (processStripped st ('#' :: rest)).lastSet = some (normalizeColor ('#' :: rest))
    ∧ (∃ m1 m2 : MoveOp, m1.color = normalizeColor ('#' :: rest) ∧ m2.color = defaultColor ∧
        (processStripped (processStripped (processStripped st ('#' :: rest))
            ('G' :: d1 :: args1)) ('#' :: rest)).cur = defaultColor
        ∧ (processStripped (processStripped (processStripped st ('#' :: rest))
            ('G' :: d1 :: args1)) ('#' :: rest)).lastSet = none
        ∧ (processStripped (processStripped (processStripped (processStripped st
            ('#' :: rest)) ('G' :: d1 :: args1)) ('#' :: rest)) ('G' :: d2 :: args2)).ops =
          st.ops ++ [Op.move m1] ++ [Op.move m2]) := by
  have h1 := processStripped_color_open st rest hv hno
  refine ⟨fun s hs => processStripped_color_close s rest hv hs, by rw [h1], by rw [h1], ?_⟩
  obtain ⟨m1, hc1, he1⟩ := processStripped_gmove
    { st with cur := normalizeColor ('#' :: rest),
              lastSet := some (normalizeColor ('#' :: rest)) } d1 args1 hd1
  have h3 := processStripped_color_close
    { cur := normalizeColor ('#' :: rest),
      lastSet := some (normalizeColor ('#' :: rest)),
      pos := ⟨m1.x, m1.y, m1.z.getD 0⟩,
      ops := st.ops ++ [Op.move m1] } rest hv rfl
  obtain ⟨m2, hc2, he2⟩ := processStripped_gmove
    { cur := defaultColor, lastSet := none,
      pos := ⟨m1.x, m1.y, m1.z.getD 0⟩,
      ops := st.ops ++ [Op.move m1] } d2 args2 hd2
  refine ⟨m1, m2, hc1, hc2, ?_, ?_, ?_⟩ <;>
    simp only [h1, he1, h3, he2, List.append_assoc]

/-- Witness for C3 at the spec scenario token #ff0000 from the initial
parser state. -/
theorem c3_witness :
    (processStripped initPState ('#' :: ['f', 'f', '0', '0', '0', '0'])).cur =
      normalizeColor ('#' :: ['f', 'f', '0', '0', '0', '0'])
    ∧ (processStripped initPState ('#' :: ['f', 'f', '0', '0', '0', '0'])).lastSet =
      some (normalizeColor ('#' :: ['f', 'f', '0', '0', '0', '0'])) := by
  have h := c3_directive_toggle initPState ['f', 'f', '0', '0', '0', '0'] [] [] '0' '1'
    (by decide) (by decide) (Or.inl rfl) (Or.inr rfl)
  exact ⟨h.2.1, h.2.2.1⟩

unseal Rat.add Rat.sub Rat.mul Rat.inv in
/-- C4 (refuted; code bug): the claim (and the test comments in the
source file) say a move line with a malformed axis value is discarded
with no operation.  coord_regex only ever captures well-formed
numerals, so the float ValueError branch that would discard the line is
dead code: on the test line G1 X10 Y10 Zbad the malformed Z token is
silently ignored and a move operation is still emitted, with X=10,
Y=10 and the G1 default Z=0. -/
theorem c4_malformed_coordinate_not_discarded :
    parse_gcode [['G', '1', ' ', 'X', '1', '0', ' ', 'Y', '1', '0', ' ', 'Z', 'b', 'a', 'd']] =
      [Op.move ⟨Cmd.G1, 10, 10, some 0, defaultColor⟩] := by
  decide

unseal Rat.add Rat.sub Rat.mul Rat.inv in
/-- C5: one extractor step over a move emits a segment exactly when the
move is a G1 draw with target Z at or below DEFAULT_Z_DOWN plus the
1e-6 tolerance (so Z = 1e-7 is pen-down and Z = 0.01 is pen-up) and the
target differs from the current position; the tracked position is
updated to the target in every case, and non-move items change
nothing. -/
theorem c5_extract_emission (st : ExtractState) (m : MoveOp) :
    ((extractStep st (Op.move m)).pos = ⟨m.x, m.y⟩
      ∧ (extractStep st (Op.move m)).z = m.z)
    ∧ ((m.cmd = Cmd.G1 ∧ penDown m.z = true ∧ (m.x ≠ st.pos.x ∨ m.y ≠ st.pos.y)) →
        (extractStep st (Op.move m)).sbc =
          addSeg st.sbc m.color ⟨st.pos, ⟨m.x, m.y⟩, m.color⟩)
    ∧ (¬ (m.cmd = Cmd.G1 ∧ penDown m.z = true ∧ (m.x ≠ st.pos.x ∨ m.y ≠ st.pos.y)) →
        (extractStep st (Op.move m)).sbc = st.sbc)
    ∧ penDown (some (1/10000000)) = true
    ∧ penDown (some (1/100)) = false
    ∧ (∀ s : ExtractState, extractStep s Op.other = s) := by
  refine ⟨⟨rfl, rfl⟩, ?_, ?_, by decide, by decide, fun s => rfl⟩
  · intro h
    show (if m.cmd = Cmd.G1 ∧ penDown m.z = true ∧ (m.x ≠ st.pos.x ∨ m.y ≠ st.pos.y) then
        addSeg st.sbc m.color ⟨st.pos, ⟨m.x, m.y⟩, m.color⟩ else st.sbc) = _
    rw [if_pos h]
  · intro h
    show (if m.cmd = Cmd.G1 ∧ penDown m.z = true ∧ (m.x ≠ st.pos.x ∨ m.y ≠ st.pos.y) then
        addSeg st.sbc m.color ⟨st.pos, ⟨m.x, m.y⟩, m.color⟩ else st.sbc) = _
    rw [if_neg h]

unseal Rat.add Rat.sub Rat.mul Rat.inv in
/-- Witness for C5: a G1 move to (2,3) at Z=0 from the initial
extractor state emits one segment from the origin. -/
theorem c5_witness :
    (extractStep ⟨[], ⟨0, 0⟩, some 0, false⟩
        (Op.move ⟨Cmd.G1, 2, 3, some 0, defaultColor⟩)).sbc =
      addSeg [] defaultColor ⟨⟨0, 0⟩, ⟨2, 3⟩, defaultColor⟩ :=
  (c5_extract_emission ⟨[], ⟨0, 0⟩, some 0, false⟩
    ⟨Cmd.G1, 2, 3, some 0, defaultColor⟩).2.1 (by decide)

/-- When the active color already matches, step 1 emits nothing. -/
theorem colorStep_skip (st : EState) (s : Segment) (h : st.color = some s.color) :
    colorStep st s = ([], st) := by
  simp [colorStep, h]

/-- When the position already matches within tolerance, step 2 emits
nothing. -/
theorem travelStep_skip (st : EState) (s : Segment)
    (h : ¬ ((st.x - s.start.x) ^ 2 + (st.y - s.start.y) ^ 2 > TRAVEL_EPS ^ 2)) :
    travelStep st s = ([], st) := by
  simp only [travelStep, if_neg h]

/-- When the tool is already down, step 3 emits nothing. -/
theorem lowerStep_skip (st : EState) (h : ¬ st.z > DEFAULT_Z_DOWN + Z_EPS) :
    lowerStep st = ([], st) := by
  simp only [lowerStep, if_neg h]

/-- Step 1 always leaves the active color equal to the segment color. -/
theorem colorStep_color (st : EState) (s : Segment) :
    ((colorStep st s).2).color = some s.color := by
  unfold colorStep
  split_ifs with h1 h2
  · rfl
  · rfl
  · simpa using (not_ne_iff.mp h1).symm

/-- Step 2 never changes the active color. -/
theorem travelStep_color (st : EState) (s : Segment) :
    ((travelStep st s).2).color = st.color := by
  unfold travelStep
  split_ifs <;> rfl

/-- Step 3 never changes the active color. -/
theorem lowerStep_color (st : EState) : ((lowerStep st).2).color = st.color := by
  unfold lowerStep
  split_ifs <;> rfl

/-- After step 3 the pen is at or below the down reference plus
tolerance. -/
theorem lowerStep_z (st : EState) : ((lowerStep st).2).z ≤ DEFAULT_Z_DOWN + Z_EPS := by
  unfold lowerStep
  split_ifs with h
  · rw [DEFAULT_Z_DOWN, Z_EPS]; norm_num
  · simpa using le_of_not_lt h

/-- After emitting a segment the state holds its color, its endpoint,
and a pen height at or below the down reference plus tolerance. -/
theorem emitSegment_state (st : EState) (s : Segment) :
    ((emitSegment st s).2).color = some s.color
    ∧ ((emitSegment st s).2).x = s.stop.x
    ∧ ((emitSegment st s).2).y = s.stop.y
    ∧ ((emitSegment st s).2).z ≤ DEFAULT_Z_DOWN + Z_EPS := by
  refine ⟨?_, rfl, rfl, ?_⟩
  · show (lowerStep (travelStep (colorStep st s).2 s).2).2.color = some s.color
    rw [lowerStep_color, travelStep_color, colorStep_color]
  · show (lowerStep (travelStep (colorStep st s).2 s).2).2.z ≤ _
    exact lowerStep_z _

/-- C6: if two consecutive segments share a color and the start of the
second is within the travel tolerance of the end of the first, the
emitter produces only the draw line for the second segment: no travel,
no color directive, no lift and no down transition in between. -/
theorem c6_no_redundant_transitions (st : EState) (s1 s2 : Segment)
    (hc : s2.color = s1.color)
    (hd : (s1.stop.x - s2.start.x) ^ 2 + (s1.stop.y - s2.start.y) ^ 2 ≤ TRAVEL_EPS ^ 2) :
    (emitSegment (emitSegment st s1).2 s2).1 =
      [GLine.g1xy s2.stop.x s2.stop.y DEFAULT_FEED_RATE_DRAW] := by
  obtain ⟨hcol, hx, hy, hz⟩ := emitSegment_state st s1
  set t := (emitSegment st s1).2 with ht
  have e1 : colorStep t s2 = ([], t) := colorStep_skip _ _ (by rw [hcol, hc])
  have e2 : travelStep t s2 = ([], t) :=
    travelStep_skip _ _ (by rw [hx, hy]; exact not_lt.mpr hd)
  have e3 : lowerStep t = ([], t) := lowerStep_skip _ (not_lt.mpr hz)
  show (emitSegment t s2).1 = _
  simp [emitSegment, e1, e2, e3]

unseal Rat.add Rat.sub Rat.mul Rat.inv in
/-- Witness for C6: two touching black segments, drawn from the initial
emitter state. -/
theorem c6_witness :
    (emitSegment (emitSegment ⟨0, 0, 5, none⟩ ⟨⟨1, 1⟩, ⟨2, 2⟩, defaultColor⟩).2
        ⟨⟨2, 2⟩, ⟨3, 3⟩, defaultColor⟩).1 =
      [GLine.g1xy 3 3 DEFAULT_FEED_RATE_DRAW] :=
  c6_no_redundant_transitions ⟨0, 0, 5, none⟩ ⟨⟨1, 1⟩, ⟨2, 2⟩, defaultColor⟩
    ⟨⟨2, 2⟩, ⟨3, 3⟩, defaultColor⟩ rfl (by decide)

/-- Two strings differ when they differ at a probed index inside the
concrete prefix of the first. -/
theorem ne_of_probe (p s q m : String) (n : ℕ) (hlt : n < p.data.length)
    (hne : p.data[n]? ≠ m.data[n]?) : (p ++ s ++ q) ≠ m := by
  intro h
  have h2 := congrArg (fun t => t.data[n]?) h
  simp only [String.data_append, List.append_assoc] at h2
  rw [List.getElem?_append_left hlt] at h2
  exact hne h2

/-- Taking no more than the first component of a three-part append
reads only that component. -/
theorem take_append3 (p s q : String) (n : ℕ) (hn : n ≤ p.data.length) :
    (p ++ s ++ q).data.take n = p.data.take n := by
  simp only [String.data_append, List.append_assoc]
  rw [List.take_append_eq_append_take, Nat.sub_eq_zero_of_le hn, List.take_zero,
    List.append_nil]

/-- C7: modify_gcode answers the empty-input, no-drawable-segments and
unknown-strategy conditions with fixed leading-comment diagnostic
strings; the unknown-strategy text carries an explicit Error marker,
and the three texts are pairwise distinct for every strategy name. -/
theorem c7_diagnostics (parsed : List Op) (strategy : String) :
    modify_gcode [] strategy = "; Error: No parsed G-code data provided."
    ∧ (parsed ≠ [] →
        (extract_segments parsed).all (fun p => p.2.isEmpty) = true →
        modify_gcode parsed strategy =
          "; Info: No drawing segments (G1 with Z<=0) found in the G-code.")
    ∧ (parsed ≠ [] →
        (extract_segments parsed).all (fun p => p.2.isEmpty) = false →
        strategy ≠ "Shortest Path" → strategy ≠ "Vertical" → strategy ≠ "Horizontal" →
        modify_gcode parsed strategy =
          "; Error: Unknown optimization strategy \x27" ++ strategy ++ "\x27.")
    ∧ (∀ s : String,
        ("; Error: Unknown optimization strategy \x27" ++ s ++ "\x27.").data.take 9 =
          "; Error: ".data
        ∧ "; Error: Unknown optimization strategy \x27" ++ s ++ "\x27." ≠
            "; Error: No parsed G-code data provided."
        ∧ "; Error: Unknown optimization strategy \x27" ++ s ++ "\x27." ≠
            "; Info: No drawing segments (G1 with Z<=0) found in the G-code.")
    ∧ "; Error: No parsed G-code data provided." ≠
        "; Info: No drawing segments (G1 with Z<=0) found in the G-code."
    ∧ "; Error: No parsed G-code data provided.".data.head? = some ';'
    ∧ "; Info: No drawing segments (G1 with Z<=0) found in the G-code.".data.head? =
        some ';' := by
  refine ⟨rfl, ?_, ?_, ?_, by decide, by decide, by decide⟩
  · intro h1 h2
    cases parsed with
    | nil => exact absurd rfl h1
    | cons a t => simp [modify_gcode, modifyBody, h2]
  · intro h1 h2 h3 h4 h5
    cases parsed with
    | nil => exact absurd rfl h1
    | cons a t => simp [modify_gcode, modifyBody, h2, h3, h4, h5]
  · intro s
    exact ⟨take_append3 _ _ _ 9 (by decide),
      ne_of_probe _ _ _ _ 9 (by decide) (by decide),
      ne_of_probe _ _ _ _ 2 (by decide) (by decide)⟩

unseal Rat.add Rat.sub Rat.mul Rat.inv in
/-- Witness for C7: a one-segment input with the unknown strategy name
Diagonal receives the unknown-strategy diagnostic. -/
theorem c7_witness :
    modify_gcode [Op.move ⟨Cmd.G1, 1, 1, some 0, defaultColor⟩] "Diagonal" =
      "; Error: Unknown optimization strategy \x27" ++ "Diagonal" ++ "\x27." :=
  (c7_diagnostics [Op.move ⟨Cmd.G1, 1, 1, some 0, defaultColor⟩] "Diagonal").2.2.1
    (by decide) (by decide) (by decide) (by decide) (by decide)

/-- C9: modify_gcode is a total function into strings, and whenever the
try-block body ends in an exception, the catch-all maps it to the
diagnostic made of the fixed prefix followed by the exception text. -/
theorem c9_exception_to_diagnostic (parsed : List Op) (strategy : String) (e : String)
    (h : modifyBody parsed strategy = Except.error e) :
    modify_gcode parsed strategy = "; Error during modification: " ++ e := by
  by_cases hp : parsed = []
  · subst hp
    simp [modifyBody, extract_segments] at h
  · have hf : parsed.isEmpty = false := by simp [hp]
    simp [modify_gcode, hf, h]

unseal Rat.add Rat.sub Rat.mul Rat.inv in
/-- Witness for C9: the TypeError raised inside the Shortest Path
optimizer surfaces as the prefixed diagnostic. -/
theorem c9_witness :
    modify_gcode [Op.move ⟨Cmd.G1, 4, 4, some 0, defaultColor⟩] "Shortest Path" =
      "; Error during modification: " ++ "unhashable type: \x27dict\x27" :=
  c9_exception_to_diagnostic [Op.move ⟨Cmd.G1, 4, 4, some 0, defaultColor⟩]
    "Shortest Path" "unhashable type: \x27dict\x27" (by rfl)

/-- One unfolding of the scan-line loop. -/
theorem scanVals_eq (v maxv : ℚ) :
    scanVals v maxv = if v ≤ maxv then v :: scanVals (v + LINE_SPACING) maxv else [] := by
  rw [scanVals]
  simp only [dite_eq_ite]

/-- The scan walk over the box x between 0 and 10 with spacing 0.5
visits exactly the 21 half-integer stations, the right edge 10
included. -/
theorem scanVals_0_10 :
    scanVals 0 10 = [0, 1/2, 1, 3/2, 2, 5/2, 3, 7/2, 4, 9/2, 5, 11/2, 6, 13/2, 7, 15/2, 8, 17/2, 9, 19/2, 10] := by
  have e : ∀ x : ℚ, x ≤ 10 → scanVals x 10 = x :: scanVals (x + 1/2) 10 := by
    intro x h
    rw [scanVals_eq, if_pos h, LINE_SPACING]
  rw [e 0 (by norm_num), show (0:ℚ) + 1/2 = 1/2 from by norm_num,
    e (1/2) (by norm_num), show (1/2:ℚ) + 1/2 = 1 from by norm_num,
    e 1 (by norm_num), show (1:ℚ) + 1/2 = 3/2 from by norm_num,
    e (3/2) (by norm_num), show (3/2:ℚ) + 1/2 = 2 from by norm_num,
    e 2 (by norm_num), show (2:ℚ) + 1/2 = 5/2 from by norm_num,
    e (5/2) (by norm_num), show (5/2:ℚ) + 1/2 = 3 from by norm_num,
    e 3 (by norm_num), show (3:ℚ) + 1/2 = 7/2 from by norm_num,
    e (7/2) (by norm_num), show (7/2:ℚ) + 1/2 = 4 from by norm_num,
    e 4 (by norm_num), show (4:ℚ) + 1/2 = 9/2 from by norm_num,
    e (9/2) (by norm_num), show (9/2:ℚ) + 1/2 = 5 from by norm_num,
    e 5 (by norm_num), show (5:ℚ) + 1/2 = 11/2 from by norm_num,
    e (11/2) (by norm_num), show (11/2:ℚ) + 1/2 = 6 from by norm_num,
    e 6 (by norm_num), show (6:ℚ) + 1/2 = 13/2 from by norm_num,
    e (13/2) (by norm_num), show (13/2:ℚ) + 1/2 = 7 from by norm_num,
    e 7 (by norm_num), show (7:ℚ) + 1/2 = 15/2 from by norm_num,
    e (15/2) (by norm_num), show (15/2:ℚ) + 1/2 = 8 from by norm_num,
    e 8 (by norm_num), show (8:ℚ) + 1/2 = 17/2 from by norm_num,
    e (17/2) (by norm_num), show (17/2:ℚ) + 1/2 = 9 from by norm_num,
    e 9 (by norm_num), show (9:ℚ) + 1/2 = 19/2 from by norm_num,
    e (19/2) (by norm_num), show (19/2:ℚ) + 1/2 = 10 from by norm_num,
    e 10 (by norm_num), show (10:ℚ) + 1/2 = 21/2 from by norm_num,
    scanVals_eq, if_neg (by norm_num : ¬ (21/2 : ℚ) ≤ 10)]

/-- The vertical sort key is transitive. -/
theorem vKey_trans (a b c : Segment) (hab : vKey a b = true) (hbc : vKey b c = true) :
    vKey a c = true := by
  simp only [vKey, decide_eq_true_eq] at *
  rcases hab with h | ⟨h1, h2⟩ <;> rcases hbc with h' | ⟨h1', h2'⟩
  · exact Or.inl (lt_trans h h')
  · exact Or.inl (by rw [← h1']; exact h)
  · exact Or.inl (by rw [h1]; exact h')
  · exact Or.inr ⟨h1.trans h1', le_trans h2 h2'⟩

/-- The vertical sort key is total. -/
theorem vKey_total (a b : Segment) : (vKey a b || vKey b a) = true := by
  simp only [vKey, Bool.or_eq_true, decide_eq_true_eq]
  rcases lt_trichotomy a.start.x b.start.x with h | h | h
  · exact Or.inl (Or.inl h)
  · rcases le_total a.start.y b.start.y with h2 | h2
    · exact Or.inl (Or.inr ⟨h, h2⟩)
    · exact Or.inr (Or.inr ⟨h.symm, h2⟩)
  · exact Or.inr (Or.inl h)

/-- The horizontal sort key is transitive. -/
theorem hKey_trans (a b c : Segment) (hab : hKey a b = true) (hbc : hKey b c = true) :
    hKey a c = true := by
  simp only [hKey, decide_eq_true_eq] at *
  rcases hab with h | ⟨h1, h2⟩ <;> rcases hbc with h' | ⟨h1', h2'⟩
  · exact Or.inl (lt_trans h h')
  · exact Or.inl (by rw [← h1']; exact h)
  · exact Or.inl (by rw [h1]; exact h')
  · exact Or.inr ⟨h1.trans h1', le_trans h2 h2'⟩

/-- The horizontal sort key is total. -/
theorem hKey_total (a b : Segment) : (hKey a b || hKey b a) = true := by
  simp only [hKey, Bool.or_eq_true, decide_eq_true_eq]
  rcases lt_trichotomy a.start.y b.start.y with h | h | h
  · exact Or.inl (Or.inl h)
  · rcases le_total a.start.x b.start.x with h2 | h2
    · exact Or.inl (Or.inr ⟨h, h2⟩)
    · exact Or.inr (Or.inr ⟨h.symm, h2⟩)
  · exact Or.inr (Or.inl h)

/-- The bounds fold keeps each minimum at or below its maximum. -/
theorem boundsFold_le (l : List Segment) (acc : Bounds)
    (hx : acc.min_x ≤ acc.max_x) (hy : acc.min_y ≤ acc.max_y) :
    (l.foldl boundsUpd acc).min_x ≤ (l.foldl boundsUpd acc).max_x
    ∧ (l.foldl boundsUpd acc).min_y ≤ (l.foldl boundsUpd acc).max_y := by
  induction l generalizing acc with
  | nil => exact ⟨hx, hy⟩
  | cons s t ih =>
    exact ih (boundsUpd acc s)
      (le_trans (le_trans (min_le_left _ _) hx) (le_max_left _ _))
      (le_trans (le_trans (min_le_left _ _) hy) (le_max_left _ _))

/-- A computed bounding box is well ordered on both axes. -/
theorem bounds_le (segs : List Segment) (b : Bounds)
    (h : get_color_bounds segs = some b) :
    b.min_x ≤ b.max_x ∧ b.min_y ≤ b.max_y := by
  cases segs with
  | nil => simp [get_color_bounds] at h
  | cons s t =>
    have h2 : b = t.foldl boundsUpd (boundsInit s) := by
      simpa [get_color_bounds] using h.symm
    subst h2
    exact boundsFold_le t (boundsInit s) min_le_max min_le_max

/-- The bounds fold keeps a constant y extent over y-degenerate
segments. -/
theorem boundsFold_y_const (l : List Segment) (y0 : ℚ) (acc : Bounds)
    (hmin : acc.min_y = y0) (hmax : acc.max_y = y0)
    (hl : ∀ s ∈ l, s.start.y = y0 ∧ s.stop.y = y0) :
    (l.foldl boundsUpd acc).min_y = y0 ∧ (l.foldl boundsUpd acc).max_y = y0 := by
  induction l generalizing acc with
  | nil => exact ⟨hmin, hmax⟩
  | cons s t ih =>
    obtain ⟨h1, h2⟩ := hl s (List.mem_cons_self _ _)
    exact ih (boundsUpd acc s)
      (by simp [boundsUpd, hmin, h1, h2])
      (by simp [boundsUpd, hmax, h1, h2])
      (fun s' hs' => hl s' (List.mem_cons_of_mem _ hs'))

/-- A color whose segments all share one y value has a zero-height
box. -/
theorem bounds_y_const (segs : List Segment) (b : Bounds) (y0 : ℚ)
    (h : get_color_bounds segs = some b)
    (hall : ∀ s ∈ segs, s.start.y = y0 ∧ s.stop.y = y0) :
    b.min_y = y0 ∧ b.max_y = y0 := by
  cases segs with
  | nil => simp [get_color_bounds] at h
  | cons s t =>
    have h2 : b = t.foldl boundsUpd (boundsInit s) := by
      simpa [get_color_bounds] using h.symm
    subst h2
    obtain ⟨h1, h2⟩ := hall s (List.mem_cons_self _ _)
    exact boundsFold_y_const t y0 (boundsInit s)
      (by simp [boundsInit, h1, h2]) (by simp [boundsInit, h1, h2])
      (fun s' hs' => hall s' (List.mem_cons_of_mem _ hs'))

/-- The bounds fold keeps a constant x extent over x-degenerate
segments. -/
theorem boundsFold_x_const (l : List Segment) (x0 : ℚ) (acc : Bounds)
    (hmin : acc.min_x = x0) (hmax : acc.max_x = x0)
    (hl : ∀ s ∈ l, s.start.x = x0 ∧ s.stop.x = x0) :
    (l.foldl boundsUpd acc).min_x = x0 ∧ (l.foldl boundsUpd acc).max_x = x0 := by
  induction l generalizing acc with
  | nil => exact ⟨hmin, hmax⟩
  | cons s t ih =>
    obtain ⟨h1, h2⟩ := hl s (List.mem_cons_self _ _)
    exact ih (boundsUpd acc s)
      (by simp [boundsUpd, hmin, h1, h2])
      (by simp [boundsUpd, hmax, h1, h2])
      (fun s' hs' => hl s' (List.mem_cons_of_mem _ hs'))

/-- A color whose segments all share one x value has a zero-width
box. -/
theorem bounds_x_const (segs : List Segment) (b : Bounds) (x0 : ℚ)
    (h : get_color_bounds segs = some b)
    (hall : ∀ s ∈ segs, s.start.x = x0 ∧ s.stop.x = x0) :
    b.min_x = x0 ∧ b.max_x = x0 := by
  cases segs with
  | nil => simp [get_color_bounds] at h
  | cons s t =>
    have h2 : b = t.foldl boundsUpd (boundsInit s) := by
      simpa [get_color_bounds] using h.symm
    subst h2
    obtain ⟨h1, h2⟩ := hall s (List.mem_cons_self _ _)
    exact boundsFold_x_const t x0 (boundsInit s)
      (by simp [boundsInit, h1, h2]) (by simp [boundsInit, h1, h2])
      (fun s' hs' => hall s' (List.mem_cons_of_mem _ hs'))

unseal Rat.add Rat.sub Rat.mul Rat.inv in
/-- C8: for a single color whose bounding box spans x from 0 to 10,
VerticalScan generates exactly 21 segments (the right edge x = 10
included), each a vertical line over the full box height in that color,
and the result is sorted ascending by (start.x, start.y). -/
theorem c8_vertical_scan (c : List Char) (segs : List Segment) (b : Bounds)
    (hb : get_color_bounds segs = some b) (h0 : b.min_x = 0) (h10 : b.max_x = 10) :
    (optimize_vertical [(c, segs)]).length = 21
    ∧ (∃ seg ∈ optimize_vertical [(c, segs)], seg.start.x = 10)
    ∧ (∀ seg ∈ optimize_vertical [(c, segs)],
        seg.color = c ∧ seg.start.x = seg.stop.x
        ∧ seg.start.y = b.min_y ∧ seg.stop.y = b.max_y)
    ∧ (optimize_vertical [(c, segs)]).Pairwise (fun a a' => vKey a a' = true) := by
  have hblock : List.flatMap [(c, segs)] vertBlock =
      (scanVals 0 10).map (fun x => (⟨⟨x, b.min_y⟩, ⟨x, b.max_y⟩, c⟩ : Segment)) := by
    simp [vertBlock, hb, h0, h10]
  unfold optimize_vertical
  rw [hblock]
  refine ⟨?_, ?_, ?_, ?_⟩
  · rw [List.length_mergeSort, List.length_map, scanVals_0_10]
    rfl
  · refine ⟨⟨⟨10, b.min_y⟩, ⟨10, b.max_y⟩, c⟩, ?_, rfl⟩
    exact List.mem_mergeSort.mpr
      (List.mem_map_of_mem _ (by rw [scanVals_0_10]; decide))
  · intro seg hseg
    obtain ⟨x, hx, rfl⟩ := List.mem_map.mp (List.mem_mergeSort.mp hseg)
    exact ⟨rfl, rfl, rfl, rfl⟩
  · exact List.sorted_mergeSort vKey_trans vKey_total _

unseal Rat.add Rat.sub Rat.mul Rat.inv in
/-- Witness for C8: one black segment from (0,0) to (10,4). -/
theorem c8_witness :
    (optimize_vertical [(defaultColor, [⟨⟨0, 0⟩, ⟨10, 4⟩, defaultColor⟩])]).length = 21 :=
  (c8_vertical_scan defaultColor [⟨⟨0, 0⟩, ⟨10, 4⟩, defaultColor⟩] ⟨0, 0, 10, 4⟩
    (by decide) rfl rfl).1

/-- C10: every color with at least one extracted segment receives at
least one generated segment from either scanline strategy, even with a
degenerate box: when all of a color's segments share one y value,
VerticalScan emits zero-length segments with start equal to end, and
symmetrically HorizontalScan does when they share one x value. -/
theorem c10_degenerate_boxes (sbc : List (List Char × List Segment))
    (c : List Char) (segs : List Segment)
    (hmem : (c, segs) ∈ sbc) (hne : segs ≠ []) :
    (∃ seg ∈ optimize_vertical sbc, seg.color = c)
    ∧ (∃ seg ∈ optimize_horizontal sbc, seg.color = c)
    ∧ (∀ y0, (∀ s ∈ segs, s.start.y = y0 ∧ s.stop.y = y0) →
        ∀ seg ∈ optimize_vertical [(c, segs)], seg.start = seg.stop)
    ∧ (∀ x0, (∀ s ∈ segs, s.start.x = x0 ∧ s.stop.x = x0) →
        ∀ seg ∈ optimize_horizontal [(c, segs)], seg.start = seg.stop) := by
  obtain ⟨b, hb⟩ : ∃ b, get_color_bounds segs = some b := by
    cases segs with
    | nil => exact absurd rfl hne
    | cons s t => exact ⟨_, rfl⟩
  obtain ⟨hx, hy⟩ := bounds_le segs b hb
  have hvb : vertBlock (c, segs) =
      (scanVals b.min_x b.max_x).map
        (fun x => (⟨⟨x, b.min_y⟩, ⟨x, b.max_y⟩, c⟩ : Segment)) := by
    simp [vertBlock, hb]
  have hhb : horizBlock (c, segs) =
      (scanVals b.min_y b.max_y).map
        (fun y => (⟨⟨b.min_x, y⟩, ⟨b.max_x, y⟩, c⟩ : Segment)) := by
    simp [horizBlock, hb]
  have hscanx : b.min_x ∈ scanVals b.min_x b.max_x := by
    rw [scanVals_eq, if_pos hx]
    exact List.mem_cons_self _ _
  have hscany : b.min_y ∈ scanVals b.min_y b.max_y := by
    rw [scanVals_eq, if_pos hy]
    exact List.mem_cons_self _ _
  refine ⟨?_, ?_, ?_, ?_⟩
  · refine ⟨⟨⟨b.min_x, b.min_y⟩, ⟨b.min_x, b.max_y⟩, c⟩, ?_, rfl⟩
    exact List.mem_mergeSort.mpr (List.mem_flatMap.mpr
      ⟨(c, segs), hmem, by rw [hvb]; exact List.mem_map_of_mem _ hscanx⟩)
  · refine ⟨⟨⟨b.min_x, b.min_y⟩, ⟨b.max_x, b.min_y⟩, c⟩, ?_, rfl⟩
    exact List.mem_mergeSort.mpr (List.mem_flatMap.mpr
      ⟨(c, segs), hmem, by rw [hhb]; exact List.mem_map_of_mem _ hscany⟩)
  · intro y0 hall seg hseg
    obtain ⟨hminy, hmaxy⟩ := bounds_y_const segs b y0 hb hall
    obtain ⟨p, hp, hmem2⟩ := List.mem_flatMap.mp (List.mem_mergeSort.mp hseg)
    rw [List.mem_singleton] at hp
    subst hp
    rw [hvb] at hmem2
    obtain ⟨x, hx', rfl⟩ := List.mem_map.mp hmem2
    simp [hminy, hmaxy]
  · intro x0 hall seg hseg
    obtain ⟨hminx, hmaxx⟩ := bounds_x_const segs b x0 hb hall
    obtain ⟨p, hp, hmem2⟩ := List.mem_flatMap.mp (List.mem_mergeSort.mp hseg)
    rw [List.mem_singleton] at hp
    subst hp
    rw [hhb] at hmem2
    obtain ⟨x, hx', rfl⟩ := List.mem_map.mp hmem2
    simp [hminx, hmaxx]

unseal Rat.add Rat.sub Rat.mul Rat.inv in
/-- Witness for C10: a single horizontal black segment at height y = 2;
its zero-height box still yields vertical scan output for that color. -/
theorem c10_witness :
    ∃ seg ∈ optimize_vertical [(defaultColor, [⟨⟨1, 2⟩, ⟨3, 2⟩, defaultColor⟩])],
      seg.color = defaultColor :=
  (c10_degenerate_boxes [(defaultColor, [⟨⟨1, 2⟩, ⟨3, 2⟩, defaultColor⟩])]
    defaultColor [⟨⟨1, 2⟩, ⟨3, 2⟩, defaultColor⟩] (by decide) (by decide)).1
